import Mathlib

/-!
Verification of the job-scheduling subsystem (config store, cron
synchronizer, job runner, execution ledger) of the GPW scraper
repository.  Python string operations are embedded as executable
functions over `List Char`; the database tables are embedded as lists
of rows; each repository function under scrutiny is translated into a
pure Lean function over those states.
-/

namespace GPW

/-! ## Python string primitives, embedded over `List Char` -/

/-- Worker for the embedding of Python `str.split()`: `acc` holds the
reversed current token. -/
def splitWsAux : List Char → List Char → List (List Char)
  | [], acc => if acc.isEmpty then [] else [acc.reverse]
  | c :: cs, acc =>
    if c.isWhitespace then
      if acc.isEmpty then splitWsAux cs []
      else acc.reverse :: splitWsAux cs []
    else splitWsAux cs (c :: acc)

/-- Embedding of Python `str.split()` (no argument): split on runs of
whitespace, discarding empty tokens. -/
def pySplitWsC (l : List Char) : List (List Char) :=
  splitWsAux l []

/-- Embedding of Python `str.split(sep)` for a one-character separator:
split on each occurrence, keeping empty pieces. -/
def splitOnCharC (sep : Char) : List Char → List (List Char)
  | [] => [[]]
  | c :: cs =>
    if c = sep then [] :: splitOnCharC sep cs
    else
      match splitOnCharC sep cs with
      | [] => [[c]]
      | t :: ts => (c :: t) :: ts

/-- Embedding of Python `"\n".join(lines)`. -/
def joinNlC : List (List Char) → List Char
  | [] => []
  | [t] => t
  | t :: ts => t ++ '\n' :: joinNlC ts

/-- Embedding of Python `str.strip()`: drop whitespace at both ends. -/
def stripC (l : List Char) : List Char :=
  ((l.dropWhile Char.isWhitespace).reverse.dropWhile Char.isWhitespace).reverse

/-- Embedding of Python `needle in haystack` (substring test). -/
def containsSubC (hay needle : List Char) : Bool :=
  if needle.isPrefixOf hay then true
  else match hay with
    | [] => false
    | _ :: t => containsSubC t needle

/-- Embedding of Python `str.isdigit()` (restricted to ASCII digits). -/
def pyIsDigitC (l : List Char) : Bool :=
  !l.isEmpty && l.all Char.isDigit

/-- Embedding of Python `int(s)` on a digit string. -/
def pyToNatC (l : List Char) : Nat :=
  l.foldl (fun n c => n * 10 + (c.toNat - 48)) 0

/-- String-level wrappers. -/
def pySplitWs (s : String) : List String := (pySplitWsC s.data).map String.mk

def splitNl (s : String) : List String := (splitOnCharC '\n' s.data).map String.mk

def splitDash (s : String) : List String := (splitOnCharC '-' s.data).map String.mk

def joinNl (ls : List String) : String := String.mk (joinNlC (ls.map String.data))

def pyStrip (s : String) : String := String.mk (stripC s.data)

def containsSub (hay needle : String) : Bool := containsSubC hay.data needle.data

def pyIsDigit (s : String) : Bool := pyIsDigitC s.data

def pyToNat (s : String) : Nat := pyToNatC s.data

end GPW

namespace GPW

/-! ## `cron_manager.CronManager.validate_cron_expression` -/

def MARKER_START : String := "# GPW_SCRAPER_START"
def MARKER_END : String := "# GPW_SCRAPER_END"

/-- The five `(min_val, max_val, name)` triples of
`validate_cron_expression`. -/
def cronRanges : List (Nat × Nat × String) :=
  [(0, 59, "Minuta"), (0, 23, "Godzina"), (1, 31, "Dzień"),
   (1, 12, "Miesiąc"), (0, 7, "Dzień tygodnia")]

/-- The per-field loop of `validate_cron_expression`: walk the fields
paired with their ranges, returning at the first out-of-range numeric
field; wildcards `*`, `*/1` and any non-digit token are skipped. -/
def cronRangeLoop : List (String × Nat × Nat × String) → Bool × String
  | [] => (true, "✅ Poprawne wyrażenie cron")
  | (part, minVal, maxVal, name) :: rest =>
    if part = "*" || part = "*/1" then cronRangeLoop rest
    else if pyIsDigit part then
      let val := pyToNat part
      if val < minVal || val > maxVal then
        (false, s!"{name} musi być między {minVal} a {maxVal}")
      else cronRangeLoop rest
    else cronRangeLoop rest

/-- Embedding of `CronManager.validate_cron_expression`. -/
def validate_cron_expression (cronExpr : String) : Bool × String :=
  let parts := pySplitWs cronExpr
  if parts.length ≠ 5 then
    (false, "Wyrażenie cron musi mieć 5 części: minuta godzina dzień miesiąc dzień_tygodnia")
  else
    cronRangeLoop (parts.zip cronRanges)

/-! ## `src/ui/shared_utils.schedule_to_cron` -/

/-- The `dow_mapping` dictionary of `schedule_to_cron`. -/
def dowMapping : List (String × String) :=
  [("Poniedziałek", "1"), ("Wtorek", "2"), ("Środa", "3"), ("Czwartek", "4"),
   ("Piątek", "5"), ("Sobota", "6"), ("Niedziela", "0")]

/-- Embedding of Python `dict.get(key, default)` over an association
list, with `key` possibly `None`. -/
def dictGet (m : List (String × String)) (k : Option String) (dflt : String) : String :=
  match k with
  | none => dflt
  | some key => ((m.find? (fun p => p.1 = key)).map Prod.snd).getD dflt

/-- The `day_of_month if day_of_month else 1` truthiness default of the
monthly branch (`0` and `None` are both falsy). -/
def domDefault (day_of_month : Option Nat) : Nat :=
  match day_of_month with
  | some d => if d ≠ 0 then d else 1
  | none => 1

/-- Embedding of `schedule_to_cron`. -/
def schedule_to_cron (frequency : String) (time_hour time_minute : Nat)
    (day_of_week : Option String := none) (day_of_month : Option Nat := none) : String :=
  if frequency = "Codziennie" then
    s!"{time_minute} {time_hour} * * *"
  else if frequency = "Co tydzień" then
    let dow := dictGet dowMapping day_of_week "1"
    s!"{time_minute} {time_hour} * * {dow}"
  else if frequency = "Co miesiąc" then
    let dom := domDefault day_of_month
    s!"{time_minute} {time_hour} {dom} * *"
  else
    s!"{time_minute} {time_hour} * * *"

/-! ## `config_manager.ScrapingConfig` and the scheduled_jobs table -/

/-- Embedding of the `ScrapingConfig` dataclass.  `report_limit` exists
on the variant declared in `src/automation/config.py` (whose body is not
in the repository snapshot; per the spec it is a positive int defaulting
as at the storage boundary) and is consumed by
`src/automation/job_executor.py`. -/
structure ScrapingConfig where
  job_name : String
  company : String
  date_from : String
  date_to : String
  model : String
  cron_schedule : String
  enabled : Bool := true
  report_types : Option (List String) := none
  report_categories : Option (List String) := none
  email_notify : Option String := none
  description : String := ""
  report_limit : Nat := 5
deriving Repr, DecidableEq

/-- One row of the `scheduled_jobs` table. -/
structure JobRow where
  job_name : String
  company : String
  date_from : Option String
  date_to : Option String
  model : String
  cron_schedule : String
  enabled : Bool
  report_limit : Nat
  report_types : Option String
  report_categories : Option String
  last_run : Option Int
  next_run : Option Int
  run_count : Nat
  created_at : Int
  updated_at : Int
deriving Repr, DecidableEq

/-- Embedding of the inner `convert_date` of `insert_scheduled_job`:
DD-MM-YYYY is reordered to YYYY-MM-DD.  Returns `none` when the Python
code raises `IndexError` (a 10-character value whose first dash-part has
length 2 but which has fewer than three dash-parts), `some none` for the
empty string (SQL NULL), `some (some s)` otherwise. -/
def convert_date (dateStr : String) : Option (Option String) :=
  if dateStr = "" then some none
  else if containsSub dateStr "-" && dateStr.length = 10 then
    let parts := splitDash dateStr
    if (parts.headD "").length = 2 then
      match parts with
      | p0 :: p1 :: p2 :: _ => some (some (p2 ++ "-" ++ p1 ++ "-" ++ p0))
      | _ => none
    else some (some dateStr)
  else some (some dateStr)

/-- Embedding of `json.dumps` on a list of plain strings (escaping
elided; the encoded value is treated as opaque by every claim). -/
def jsonItems : List String → String
  | [] => ""
  | [x] => "\"" ++ x ++ "\""
  | x :: xs => "\"" ++ x ++ "\", " ++ jsonItems xs

def jsonDumps (xs : List String) : String := "[" ++ jsonItems xs ++ "]"

/-- `json.dumps(lst) if lst else None`: `None` and the empty list are
both falsy. -/
def jsonOfOptList : Option (List String) → Option String
  | some (x :: xs) => some (jsonDumps (x :: xs))
  | _ => none

/-- The `ON DUPLICATE KEY UPDATE` clause of `insert_scheduled_job`:
overwrites `company, date_from, date_to, model, cron_schedule, enabled,
report_limit, report_types, report_categories, updated_at` and nothing
else. -/
def overwriteDeclarative (company : String) (df dt : Option String)
    (model cron_schedule : String) (enabled : Bool) (report_limit : Nat)
    (rtJson rcJson : Option String) (now : Int) (r : JobRow) : JobRow :=
  { r with
    company := company, date_from := df, date_to := dt,
    model := model, cron_schedule := cron_schedule,
    enabled := enabled, report_limit := report_limit,
    report_types := rtJson, report_categories := rcJson,
    updated_at := now }

/-- The insert branch of `insert_scheduled_job`: a brand-new row whose
store-owned audit fields start at NULL/0 and whose timestamps are
`NOW()`. -/
def freshJobRow (job_name company : String) (df dt : Option String)
    (model cron_schedule : String) (enabled : Bool) (report_limit : Nat)
    (rtJson rcJson : Option String) (now : Int) : JobRow :=
  { job_name := job_name, company := company, date_from := df, date_to := dt,
    model := model, cron_schedule := cron_schedule, enabled := enabled,
    report_limit := report_limit, report_types := rtJson,
    report_categories := rcJson, last_run := none, next_run := none,
    run_count := 0, created_at := now, updated_at := now }

/-- Embedding of `database_connection.insert_scheduled_job`: an upsert
keyed on `job_name`.  Returns `none` when `convert_date` raises (the
fallback insert then raises as well and the original exception
propagates with no write). -/
def insert_scheduled_job (db : List JobRow) (now : Int)
    (job_name company date_from date_to model cron_schedule : String)
    (enabled : Bool := true) (report_limit : Nat := 5)
    (report_types : Option (List String) := none)
    (report_categories : Option (List String) := none) : Option (List JobRow) :=
  match convert_date date_from, convert_date date_to with
  | some df, some dt =>
    let rtJson := jsonOfOptList report_types
    let rcJson := jsonOfOptList report_categories
    if db.any (fun r => r.job_name = job_name) then
      some (db.map (fun r =>
        if r.job_name = job_name then
          overwriteDeclarative company df dt model cron_schedule enabled
            report_limit rtJson rcJson now r
        else r))
    else
      some (db ++ [freshJobRow job_name company df dt model cron_schedule
        enabled report_limit rtJson rcJson now])
  | _, _ => none

/-- Embedding of `ConfigManager.save_config`: calls
`insert_scheduled_job` directly (no validation, `report_limit` left at
its default) and returns `"database:<job_name>"`. -/
def save_config (db : List JobRow) (now : Int) (config : ScrapingConfig) :
    Option (String × List JobRow) :=
  (insert_scheduled_job db now config.job_name config.company config.date_from
      config.date_to config.model config.cron_schedule config.enabled 5
      config.report_types config.report_categories).map
    (fun db' => ("database:" ++ config.job_name, db'))

/-- Embedding of `ConfigManager.validate_config`.  The
`datetime.strptime(value, d-m-Y)` success test is the stdlib
collaborator, passed in as the predicate `strptimeOk`. -/
def validate_config (strptimeOk : String → Bool) (config : ScrapingConfig) :
    List String :=
  (if config.job_name = "" then ["job_name is required"] else []) ++
  (if config.company = "" then ["company is required"] else []) ++
  (if config.model = "" then ["model is required"] else []) ++
  (if config.cron_schedule = "" then ["cron_schedule is required"] else []) ++
  (if config.date_from ≠ "" && !strptimeOk config.date_from then
    ["date_from must be in dd-mm-yyyy format"] else []) ++
  (if config.date_to ≠ "" && !strptimeOk config.date_to then
    ["date_to must be in dd-mm-yyyy format"] else [])

/-- Embedding of `database_connection.get_scheduled_job` /
`ConfigManager.load_config`: first row whose `job_name` matches, else
`None`. -/
def get_scheduled_job (db : List JobRow) (name : String) : Option JobRow :=
  db.find? (fun r => r.job_name = name)

/-- Embedding of `database_connection.update_job_run_stats`: sets
`last_run = NOW()`, `next_run`, increments `run_count`. -/
def update_job_run_stats (db : List JobRow) (job_name : String)
    (next_run : Option Int) (now : Int) : List JobRow :=
  db.map (fun r =>
    if r.job_name = job_name then
      { r with last_run := some now, next_run := next_run,
               run_count := r.run_count + 1, updated_at := now }
    else r)

/-! ## `cron_manager` crontab text transformations -/

/-- The per-job lines of `CronManager._get_our_jobs_section`: for each
enabled config a comment line and the cron command line. -/
def jobSectionLines (configs : List ScrapingConfig)
    (pythonPath runScript projectPath : String) : List String :=
  configs.foldr (fun config acc =>
    if !config.enabled then acc
    else
      let logFile := projectPath ++ "/logs/" ++ config.job_name ++ ".log"
      let cron := config.cron_schedule
      let jn := config.job_name
      let cmd := s!"{cron} {pythonPath} {runScript} {jn} >> {logFile} 2>&1"
      ("# " ++ (if config.description ≠ "" then config.description else config.job_name))
        :: cmd :: acc) []

/-- The `lines` list built by `_get_our_jobs_section`: start marker,
job lines, end marker. -/
def sectionLines (configs : List ScrapingConfig)
    (pythonPath runScript projectPath : String) : List String :=
  [MARKER_START] ++ jobSectionLines configs pythonPath runScript projectPath ++
    [MARKER_END]

/-- Embedding of `CronManager._get_our_jobs_section`: the section lines
joined with newlines. -/
def getOurJobsSection (configs : List ScrapingConfig)
    (pythonPath runScript projectPath : String) : String :=
  joinNl (sectionLines configs pythonPath runScript projectPath)

/-- The marker-excision loop shared by `install_jobs` (which keeps every
line outside the managed section, blank lines included). -/
def exciseLoop : List String → Bool → List String
  | [], _ => []
  | l :: ls, inSection =>
    if pyStrip l = MARKER_START then exciseLoop ls true
    else if pyStrip l = MARKER_END then exciseLoop ls false
    else if !inSection then l :: exciseLoop ls inSection
    else exciseLoop ls inSection

/-- The excision loop of `uninstall_jobs`, which additionally drops
every line whose `strip()` is empty. -/
def uninstallLoop : List String → Bool → List String
  | [], _ => []
  | l :: ls, inSection =>
    if pyStrip l = MARKER_START then uninstallLoop ls true
    else if pyStrip l = MARKER_END then uninstallLoop ls false
    else if !inSection && pyStrip l ≠ "" then l :: uninstallLoop ls inSection
    else uninstallLoop ls inSection

/-- The lines of a crontab text lying outside the managed section
(marker lines themselves excluded): the foreign content. -/
def foreignLines (t : String) : List String := exciseLoop (splitNl t) false

/-- The non-blank foreign lines of a crontab text. -/
def nbForeign (t : String) : List String :=
  (foreignLines t).filter (fun l => pyStrip l ≠ "")

/-- Embedding of `CronManager.install_jobs` as a text transformation:
given the stored configs and the current crontab text, the new crontab
text written back, or `none` when there is no enabled config (the
method returns `(False, …)` before touching the crontab). -/
def install_jobs (configs : List ScrapingConfig) (currentCrontab : String)
    (pythonPath runScript projectPath : String) : Option String :=
  let activeConfigs := configs.filter (fun c => c.enabled)
  if activeConfigs.isEmpty then none
  else
    let ourSection := getOurJobsSection activeConfigs pythonPath runScript projectPath
    let lines := splitNl currentCrontab
    let newLines := exciseLoop lines false
    some (pyStrip (joinNl (newLines ++ [ourSection])) ++ "\n")

/-- Embedding of `CronManager.uninstall_jobs` as a text transformation:
returns the crontab content after the call (unchanged when the start
marker is absent — the method returns success without writing). -/
def uninstall_jobs (currentCrontab : String) : String :=
  if !containsSub currentCrontab MARKER_START then currentCrontab
  else
    let newLines := uninstallLoop (splitNl currentCrontab) false
    if newLines.isEmpty then "" else pyStrip (joinNl newLines) ++ "\n"

/-! ## Execution ledger (`job_execution_log` table) -/

/-- One row of the `job_execution_log` table. -/
structure ExecRecord where
  id : Nat
  job_name : String
  status : String
  started_at : Int
  finished_at : Option Int
  duration_seconds : Option Int
  reports_found : Option Nat
  documents_processed : Option Nat
  summary_report_id : Option Nat
  error_message : Option String
  log_file_path : Option String
deriving Repr, DecidableEq

/-- The freshly inserted row of `insert_job_execution`: only `job_name`,
`status` and `started_at = NOW()` are set, every other column is NULL. -/
def openRecord (newId : Nat) (job_name status : String) (now : Int) : ExecRecord :=
  { id := newId, job_name := job_name, status := status, started_at := now,
    finished_at := none, duration_seconds := none, reports_found := none,
    documents_processed := none, summary_report_id := none,
    error_message := none, log_file_path := none }

/-- Embedding of `database_connection.insert_job_execution`: appends a
fresh row with the given status and `started_at = NOW()`; returns its
(always positive) `lastrowid`. -/
def insert_job_execution (ledger : List ExecRecord) (job_name : String)
    (status : String) (now : Int) : Nat × List ExecRecord :=
  let newId := ledger.length + 1
  (newId, ledger ++ [openRecord newId job_name status now])

/-- The SET clause of `update_job_execution`: status,
`finished_at = NOW()`,
`duration_seconds = TIMESTAMPDIFF(SECOND, started_at, NOW())` and the
optional columns (Python `None` arguments become SQL NULL). -/
def closeRow (status : String) (reports_found documents_processed
    summary_report_id : Option Nat) (error_message log_file_path : Option String)
    (now : Int) (r : ExecRecord) : ExecRecord :=
  { r with
    status := status, finished_at := some now,
    duration_seconds := some (now - r.started_at),
    reports_found := reports_found,
    documents_processed := documents_processed,
    summary_report_id := summary_report_id,
    error_message := error_message,
    log_file_path := log_file_path }

/-- Embedding of `database_connection.update_job_execution`: an
unconditional `UPDATE … WHERE id = %s` applying `closeRow` to the
matched record, terminal or not. -/
def update_job_execution (ledger : List ExecRecord) (execution_id : Nat)
    (status : String) (reports_found : Option Nat := none)
    (documents_processed : Option Nat := none)
    (summary_report_id : Option Nat := none)
    (error_message : Option String := none)
    (log_file_path : Option String := none) (now : Int := 0) : List ExecRecord :=
  ledger.map (fun r =>
    if r.id = execution_id then
      closeRow status reports_found documents_processed summary_report_id
        error_message log_file_path now r
    else r)

/-! ## The two job runners -/

/-- Combined database state seen by a runner. -/
structure World where
  jobs : List JobRow
  ledger : List ExecRecord
deriving Repr, DecidableEq

/-- Outcome of the opaque `scrape(...)` collaborator as unpacked by
`run_scheduled.run_job` (4-tuple): the summary text, the dataframe
(`none` = Python `None`, otherwise its length) and the attachments list
(`none` = Python `None`, otherwise its length); or a raised exception
with its message. -/
inductive ScrapeOutcome where
  | ok (summary_text : String) (df : Option Nat) (attachments : Option Nat)
  | err (msg : String)
deriving Repr, DecidableEq

/-- CPython's message for `len(None)`, raised by the result-file write
in `run_scheduled.run_job` when `scrape` returns `attachments = None`. -/
def noneLenMsg : String := "object of type 'NoneType' has no len()"

/-- Embedding of `run_scheduled.run_job`.  `t_start` is the clock at
`insert_job_execution`, `t_end` at the closing `update_job_execution`;
`timestamp` is the formatted time in the result-file name. -/
def run_scheduled_run_job (world : World) (job_name : String)
    (outcome : ScrapeOutcome) (timestamp : String) (t_start t_end : Int) :
    Bool × World :=
  match get_scheduled_job world.jobs job_name with
  | none => (false, world)
  | some config =>
    if !config.enabled then (false, world)
    else
      let (execution_id, ledger1) :=
        insert_job_execution world.ledger job_name "running" t_start
      match outcome with
      | .err msg =>
        let ledger2 := update_job_execution ledger1 execution_id "error"
          (some 0) (some 0) none (some msg) none t_end
        (false, { world with ledger := ledger2 })
      | .ok _ df attachments =>
        let reports_found := df.getD 0
        match attachments with
        | none =>
          -- `len(attachments)` in the result-file write raises TypeError,
          -- caught by the same except-branch with the counts computed so far
          let ledger2 := update_job_execution ledger1 execution_id "error"
            (some reports_found) (some 0) none (some noneLenMsg) none t_end
          (false, { world with ledger := ledger2 })
        | some nAttach =>
          let documents_processed := nAttach
          let output_file := "scheduled_results/" ++ job_name ++ "_" ++ timestamp ++ ".txt"
          let ledger2 :=
            update_job_execution ledger1 execution_id "success"
              (some reports_found) (some documents_processed) none none
              (some output_file) t_end
          let jobs2 := update_job_run_stats world.jobs job_name none t_end
          (true, { jobs := jobs2, ledger := ledger2 })

/-- Outcome of `scrape(...)` as unpacked by
`src/automation/job_executor.run_job` (6-tuple): the dataframe length
and `downloaded_file_names` (`none` = not a Python list, counted as 0);
or a raised exception. -/
inductive ScrapeOutcome6 where
  | ok (summary_text : String) (df : Option Nat) (downloaded_file_names : Option Nat)
  | err (msg : String)
deriving Repr, DecidableEq

/-- Embedding of `src/automation/job_executor.run_job`. -/
def job_executor_run_job (world : World) (job_name : String)
    (outcome : ScrapeOutcome6) (timestamp : String) (t_start t_end : Int) :
    Bool × World :=
  match get_scheduled_job world.jobs job_name with
  | none => (false, world)
  | some config =>
    if !config.enabled then (false, world)
    else
      let (execution_id, ledger1) :=
        insert_job_execution world.ledger job_name "running" t_start
      match outcome with
      | .err msg =>
        let ledger2 := update_job_execution ledger1 execution_id "failed"
          (some 0) (some 0) none (some msg) none t_end
        (false, { world with ledger := ledger2 })
      | .ok _ df downloaded_file_names =>
        let reports_found := df.getD 0
        let documents_processed := downloaded_file_names.getD 0
        let output_file := "scheduled_results/" ++ job_name ++ "_" ++ timestamp ++ ".txt"
        let ledger2 :=
          update_job_execution ledger1 execution_id "success"
            (some reports_found) (some documents_processed) none none
            (some output_file) t_end
        let jobs2 := update_job_run_stats world.jobs job_name none t_end
        (true, { jobs := jobs2, ledger := ledger2 })

/-! ## `src/ui/tabs/automation_tab.run_job_now` -/

/-- Outcome of the `subprocess.run` call in `run_job_now`. -/
inductive SubprocessOutcome where
  | completed (returncode : Int) (stdout stderr : String)
  | timeout
  | failedToStart (msg : String)
deriving Repr, DecidableEq

/-- Embedding of `run_job_now`.  The ledger is threaded through to make
the function's database footprint explicit: no branch performs any
database write (in particular the `subprocess.TimeoutExpired` branch
only returns a message). -/
def run_job_now (job_name : String) (outcome : SubprocessOutcome)
    (ledger : List ExecRecord) : String × List ExecRecord :=
  if job_name = "" || pyStrip job_name = "" then
    ("❌ Wybierz zadanie do uruchomienia", ledger)
  else
    match outcome with
    | .completed returncode stdout stderr =>
      let output := "▶️ Uruchomiono zadanie '" ++ job_name ++ "'\n\n" ++
        "📝 **Output:**\n```\n" ++
        (if stdout ≠ "" then stdout else "(brak output)") ++ "\n```\n"
      let output := if stderr ≠ "" then
          output ++ "\n⚠️ **Errors:**\n```\n" ++ stderr ++ "\n```\n"
        else output
      let output := if returncode = 0 then
          output ++ "\n✅ **Status:** Zakończone pomyślnie"
        else
          output ++ s!"\n❌ **Status:** Błąd (kod {returncode})"
      (output, ledger)
    | .timeout =>
      (s!"⏱️ Przekroczono limit czasu (5 min) dla zadania '{job_name}'", ledger)
    | .failedToStart msg =>
      (s!"❌ Błąd uruchamiania: {msg}", ledger)

end GPW

namespace GPW

/-! ## Helper lemmas -/

theorem find?_map_jobname (db : List JobRow) (n : String) (f : JobRow → JobRow)
    (hf : ∀ x, (f x).job_name = x.job_name) :
    (db.map f).find? (fun x => x.job_name = n) =
      (db.find? (fun x => x.job_name = n)).map f := by
  have hp : ((fun x : JobRow => decide (x.job_name = n)) ∘ f) =
      (fun x : JobRow => decide (x.job_name = n)) := by
    funext x
    simp [Function.comp, hf]
  rw [List.find?_map, hp]

theorem update_job_execution_append_fresh (ledger : List ExecRecord)
    (a : ExecRecord) (i : Nat) (hfresh : ∀ rec ∈ ledger, rec.id ≠ i)
    (ha : a.id = i) (status : String) (rf dp sri : Option Nat)
    (em lfp : Option String) (now : Int) :
    update_job_execution (ledger ++ [a]) i status rf dp sri em lfp now =
      ledger ++ [closeRow status rf dp sri em lfp now a] := by
  unfold update_job_execution
  rw [List.map_append]
  congr 1
  · have h : ∀ x ∈ ledger,
        (fun r : ExecRecord => if r.id = i then
          closeRow status rf dp sri em lfp now r else r) x = id x := by
      intro x hx
      simp [hfresh x hx]
    rw [List.map_congr_left h, List.map_id]
  · simp [ha]

/-! ## Sample data for witnesses -/

def sampleRow : JobRow :=
  { job_name := "PKO_daily", company := "PKO", date_from := none, date_to := none,
    model := "llama3", cron_schedule := "0 9 * * *", enabled := true,
    report_limit := 5, report_types := none, report_categories := none,
    last_run := some 100, next_run := some 200, run_count := 7,
    created_at := 1, updated_at := 2 }

def sampleConfig : ScrapingConfig :=
  { job_name := "PKO_daily", company := "NewCo", date_from := "", date_to := "",
    model := "llama3", cron_schedule := "0 9 * * *" }

def sampleExec : ExecRecord :=
  { id := 1, job_name := "PKO_daily", status := "running", started_at := 0,
    finished_at := none, duration_seconds := none, reports_found := none,
    documents_processed := none, summary_report_id := none,
    error_message := none, log_file_path := none }

/-! ## C1 -/

/-- C1: re-saving an existing `job_name` through
`ConfigManager.save_config` / `insert_scheduled_job` overwrites exactly
the declarative fields (`company`, the dates, `model`, `cron_schedule`,
`enabled`, `report_limit`, `report_types`, `report_categories`, plus
`updated_at`) of the stored row and leaves `run_count`, `last_run` and
`next_run` (and `created_at`) unchanged — in particular a save that only
changes `company` preserves `run_count` and `last_run`. -/
theorem save_config_preserves_run_stats (db : List JobRow) (now : Int)
    (cfg : ScrapingConfig) (r : JobRow) (df dt : Option String)
    (hfind : get_scheduled_job db cfg.job_name = some r)
    (hdf : convert_date cfg.date_from = some df)
    (hdt : convert_date cfg.date_to = some dt) :
    ∃ db', save_config db now cfg = some ("database:" ++ cfg.job_name, db') ∧
      get_scheduled_job db' cfg.job_name = some
        (overwriteDeclarative cfg.company df dt cfg.model cfg.cron_schedule
          cfg.enabled 5 (jsonOfOptList cfg.report_types)
          (jsonOfOptList cfg.report_categories) now r) ∧
      (overwriteDeclarative cfg.company df dt cfg.model cfg.cron_schedule
          cfg.enabled 5 (jsonOfOptList cfg.report_types)
          (jsonOfOptList cfg.report_categories) now r).run_count = r.run_count ∧
      (overwriteDeclarative cfg.company df dt cfg.model cfg.cron_schedule
          cfg.enabled 5 (jsonOfOptList cfg.report_types)
          (jsonOfOptList cfg.report_categories) now r).last_run = r.last_run ∧
      (overwriteDeclarative cfg.company df dt cfg.model cfg.cron_schedule
          cfg.enabled 5 (jsonOfOptList cfg.report_types)
          (jsonOfOptList cfg.report_categories) now r).next_run = r.next_run := by
  have hmem : r ∈ db := List.mem_of_find?_eq_some hfind
  have hname : r.job_name = cfg.job_name := by
    have := List.find?_some hfind
    simpa using this
  have hany : db.any (fun x => x.job_name = cfg.job_name) = true := by
    rw [List.any_eq_true]
    exact ⟨r, hmem, by simp [hname]⟩
  refine ⟨db.map (fun x => if x.job_name = cfg.job_name then
      overwriteDeclarative cfg.company df dt cfg.model cfg.cron_schedule
        cfg.enabled 5 (jsonOfOptList cfg.report_types)
        (jsonOfOptList cfg.report_categories) now x else x), ?_, ?_, rfl, rfl, rfl⟩
  · unfold save_config insert_scheduled_job
    rw [hdf, hdt]
    simp [hany]
  · unfold get_scheduled_job
    rw [find?_map_jobname]
    · unfold get_scheduled_job at hfind
      rw [hfind]
      simp [hname]
    · intro x
      by_cases h : x.job_name = cfg.job_name <;> simp [h, overwriteDeclarative]

/-- Witness for C1: a concrete one-row database re-saved with a changed
company keeps `run_count = 7`, `last_run = 100`, `next_run = 200`. -/
theorem save_config_preserves_run_stats_witness :
    ∃ db', save_config [sampleRow] 50 sampleConfig =
        some ("database:" ++ sampleConfig.job_name, db') ∧
      get_scheduled_job db' sampleConfig.job_name = some
        (overwriteDeclarative sampleConfig.company none none sampleConfig.model
          sampleConfig.cron_schedule sampleConfig.enabled 5
          (jsonOfOptList sampleConfig.report_types)
          (jsonOfOptList sampleConfig.report_categories) 50 sampleRow) ∧
      (overwriteDeclarative sampleConfig.company none none sampleConfig.model
          sampleConfig.cron_schedule sampleConfig.enabled 5
          (jsonOfOptList sampleConfig.report_types)
          (jsonOfOptList sampleConfig.report_categories) 50 sampleRow).run_count =
        sampleRow.run_count ∧
      (overwriteDeclarative sampleConfig.company none none sampleConfig.model
          sampleConfig.cron_schedule sampleConfig.enabled 5
          (jsonOfOptList sampleConfig.report_types)
          (jsonOfOptList sampleConfig.report_categories) 50 sampleRow).last_run =
        sampleRow.last_run ∧
      (overwriteDeclarative sampleConfig.company none none sampleConfig.model
          sampleConfig.cron_schedule sampleConfig.enabled 5
          (jsonOfOptList sampleConfig.report_types)
          (jsonOfOptList sampleConfig.report_categories) 50 sampleRow).next_run =
        sampleRow.next_run :=
  save_config_preserves_run_stats [sampleRow] 50 sampleConfig sampleRow none none
    (by decide) (by decide) (by decide)

/-! ## C4 -/

/-- C4 counterexample: the claim that a second close of an
already-terminal ExecutionRecord is rejected and does not modify the
record is false — `update_job_execution` is an unconditional UPDATE, so
re-closing record 1 (already closed as `success` at time 10) as `failed`
at time 20 changes its status, finished_at and duration_seconds. -/
theorem close_twice_modifies_record :
    update_job_execution
        (update_job_execution [sampleExec] 1 "success" (some 3) (some 2) none none
          (some "f.txt") 10)
        1 "failed" none none none (some "boom") none 20 ≠
      update_job_execution [sampleExec] 1 "success" (some 3) (some 2) none none
        (some "f.txt") 10 ∧
    (update_job_execution
        (update_job_execution [sampleExec] 1 "success" (some 3) (some 2) none none
          (some "f.txt") 10)
        1 "failed" none none none (some "boom") none 20).map
      (fun r => (r.status, r.finished_at, r.duration_seconds)) =
      [("failed", some 20, some 20)] := by
  constructor
  · decide
  · decide

/-- C4 amended: closing is never rejected — `update_job_execution`
unconditionally overwrites the matched record (terminal or not), setting
`status`, `finished_at = now`,
`duration_seconds = now - started_at` and the optional columns to the
newly passed values. -/
theorem update_job_execution_unconditional (ledger : List ExecRecord)
    (i : Nat) (status : String) (rf dp sri : Option Nat)
    (em lfp : Option String) (now : Int) (r : ExecRecord)
    (hr : r ∈ ledger) (hid : r.id = i) :
    closeRow status rf dp sri em lfp now r ∈
      update_job_execution ledger i status rf dp sri em lfp now := by
  unfold update_job_execution
  have := List.mem_map_of_mem (fun x : ExecRecord => if x.id = i then
    closeRow status rf dp sri em lfp now x else x) hr
  simpa [hid] using this

/-- Witness for the amended C4: re-closing the already-successful
record 1 at time 20 as `failed` lands the overwritten record in the
ledger. -/
theorem update_job_execution_unconditional_witness :
    closeRow "failed" none none none (some "boom") none 20
        (closeRow "success" (some 3) (some 2) none none (some "f.txt") 10
          sampleExec) ∈
      update_job_execution
        [closeRow "success" (some 3) (some 2) none none (some "f.txt") 10
          sampleExec]
        1 "failed" none none none (some "boom") none 20 :=
  update_job_execution_unconditional _ 1 "failed" none none none
    (some "boom") none 20 _ (by decide) (by decide)

/-! ## C7 -/

/-- C7: both runners (`run_scheduled.run_job` and
`src/automation/job_executor.run_job`) return failure and leave the
whole world — execution ledger included — unchanged, both when the named
configuration does not exist and when it exists but is disabled. -/
theorem run_job_no_record_when_absent_or_disabled (world : World)
    (name timestamp : String) (o4 : ScrapeOutcome) (o6 : ScrapeOutcome6)
    (t1 t2 : Int) :
    (get_scheduled_job world.jobs name = none →
      run_scheduled_run_job world name o4 timestamp t1 t2 = (false, world) ∧
      job_executor_run_job world name o6 timestamp t1 t2 = (false, world)) ∧
    (∀ cfg, get_scheduled_job world.jobs name = some cfg → cfg.enabled = false →
      run_scheduled_run_job world name o4 timestamp t1 t2 = (false, world) ∧
      job_executor_run_job world name o6 timestamp t1 t2 = (false, world)) := by
  constructor
  · intro h
    constructor
    · unfold run_scheduled_run_job
      rw [h]
    · unfold job_executor_run_job
      rw [h]
  · intro cfg h hdis
    constructor
    · unfold run_scheduled_run_job
      rw [h]
      simp [hdis]
    · unfold job_executor_run_job
      rw [h]
      simp [hdis]

def disabledRow : JobRow := { sampleRow with enabled := false }

/-- Witness for C7: with a one-job database, running an unknown job and
running a disabled job all fail with an unchanged world. -/
theorem run_job_no_record_witness :
    run_scheduled_run_job (World.mk [sampleRow] []) "nosuch"
        (ScrapeOutcome.err "x") "ts" 0 1 = (false, World.mk [sampleRow] []) ∧
    job_executor_run_job (World.mk [sampleRow] []) "nosuch"
        (ScrapeOutcome6.err "x") "ts" 0 1 = (false, World.mk [sampleRow] []) ∧
    run_scheduled_run_job (World.mk [disabledRow] []) "PKO_daily"
        (ScrapeOutcome.err "x") "ts" 0 1 = (false, World.mk [disabledRow] []) ∧
    job_executor_run_job (World.mk [disabledRow] []) "PKO_daily"
        (ScrapeOutcome6.err "x") "ts" 0 1 = (false, World.mk [disabledRow] []) := by
  have h1 := (run_job_no_record_when_absent_or_disabled (World.mk [sampleRow] [])
    "nosuch" "ts" (ScrapeOutcome.err "x") (ScrapeOutcome6.err "x") 0 1).1 (by decide)
  have h2 := (run_job_no_record_when_absent_or_disabled (World.mk [disabledRow] [])
    "PKO_daily" "ts" (ScrapeOutcome.err "x") (ScrapeOutcome6.err "x") 0 1).2
    disabledRow (by decide) (by decide)
  exact ⟨h1.1, h1.2, h2.1, h2.2⟩

/-! ## C2 -/

/-- C2 counterexample: the claim that every runner closes a raising run
with status `failed` is false for `run_scheduled.run_job`, which closes
it with status `error` — a concrete enabled job whose collaborator
raises leaves its single record with status `error`, not `failed`. -/
theorem run_scheduled_failure_status_counterexample :
    (run_scheduled_run_job (World.mk [sampleRow] []) "PKO_daily"
        (ScrapeOutcome.err "boom") "ts" 0 5).2.ledger.map
      (fun r => (r.status, r.error_message)) = [("error", some "boom")] ∧
    "error" ≠ "failed" := by
  constructor
  · decide
  · decide

/-- C2 amended: for an enabled, existing job whose collaborator raises,
each runner catches the exception (returns failure), leaves the job
table untouched and appends exactly one ExecutionRecord, closed with a
non-null `error_message`; the closing status is `failed` in
`src/automation/job_executor.run_job` but `error` in
`run_scheduled.run_job`. -/
theorem run_job_collaborator_raises (world : World)
    (name timestamp msg : String) (cfg : JobRow) (t1 t2 : Int)
    (hfind : get_scheduled_job world.jobs name = some cfg)
    (hen : cfg.enabled = true)
    (hfresh : ∀ rec ∈ world.ledger, rec.id ≠ world.ledger.length + 1) :
    run_scheduled_run_job world name (ScrapeOutcome.err msg) timestamp t1 t2 =
      (false, { world with ledger := world.ledger ++
        [closeRow "error" (some 0) (some 0) none (some msg) none t2
          (openRecord (world.ledger.length + 1) name "running" t1)] }) ∧
    job_executor_run_job world name (ScrapeOutcome6.err msg) timestamp t1 t2 =
      (false, { world with ledger := world.ledger ++
        [closeRow "failed" (some 0) (some 0) none (some msg) none t2
          (openRecord (world.ledger.length + 1) name "running" t1)] }) ∧
    (closeRow "error" (some 0) (some 0) none (some msg) none t2
      (openRecord (world.ledger.length + 1) name "running" t1)).error_message ≠
        none ∧
    (closeRow "failed" (some 0) (some 0) none (some msg) none t2
      (openRecord (world.ledger.length + 1) name "running" t1)).error_message ≠
        none := by
  refine ⟨?_, ?_, by simp [closeRow, openRecord], by simp [closeRow, openRecord]⟩
  · unfold run_scheduled_run_job
    rw [hfind]
    simp only [hen, Bool.not_true, Bool.false_eq_true, if_false]
    unfold insert_job_execution
    rw [update_job_execution_append_fresh _ _ _ hfresh rfl]
  · unfold job_executor_run_job
    rw [hfind]
    simp only [hen, Bool.not_true, Bool.false_eq_true, if_false]
    unfold insert_job_execution
    rw [update_job_execution_append_fresh _ _ _ hfresh rfl]

/-- Witness for the amended C2 at a concrete enabled job with an empty
ledger and a raising collaborator. -/
theorem run_job_collaborator_raises_witness :
    run_scheduled_run_job (World.mk [sampleRow] []) "PKO_daily"
        (ScrapeOutcome.err "boom") "ts" 0 5 =
      (false, World.mk [sampleRow]
        [closeRow "error" (some 0) (some 0) none (some "boom") none 5
          (openRecord 1 "PKO_daily" "running" 0)]) ∧
    job_executor_run_job (World.mk [sampleRow] []) "PKO_daily"
        (ScrapeOutcome6.err "boom") "ts" 0 5 =
      (false, World.mk [sampleRow]
        [closeRow "failed" (some 0) (some 0) none (some "boom") none 5
          (openRecord 1 "PKO_daily" "running" 0)]) ∧
    (closeRow "error" (some 0) (some 0) none (some "boom") none 5
      (openRecord 1 "PKO_daily" "running" 0)).error_message ≠ none ∧
    (closeRow "failed" (some 0) (some 0) none (some "boom") none 5
      (openRecord 1 "PKO_daily" "running" 0)).error_message ≠ none := by
  have h := run_job_collaborator_raises (World.mk [sampleRow] []) "PKO_daily"
    "ts" "boom" sampleRow 0 5 (by decide) (by decide)
    (by intro rec hmem; simp at hmem)
  simpa using h

/-! ## C8 -/

/-- C8 counterexample: on a subprocess timeout `run_job_now` only
returns a message — the ExecutionRecord opened by the timed-out child is
not closed: it keeps status `running`, not `failed`, contradicting the
claim that no record is left `running`. -/
theorem run_job_now_timeout_counterexample :
    (run_job_now "PKO_daily" SubprocessOutcome.timeout [sampleExec]).2 =
        [sampleExec] ∧
    (run_job_now "PKO_daily" SubprocessOutcome.timeout [sampleExec]).2.map
        (fun r => r.status) = ["running"] ∧
    (run_job_now "PKO_daily" SubprocessOutcome.timeout [sampleExec]).1 =
      "⏱️ Przekroczono limit czasu (5 min) dla zadania 'PKO_daily'" := by
  refine ⟨by decide, by decide, by decide⟩

/-- C8 amended: on a subprocess timeout the subprocess is killed by
`subprocess.run` and `run_job_now` returns a distinguishable timeout
message, but performs no database write whatsoever: the execution ledger
is returned exactly as it was, so the record the child opened stays in
status `running` indefinitely instead of being closed as `failed`. -/
theorem run_job_now_timeout_no_db_write (name : String)
    (ledger : List ExecRecord) (h1 : name ≠ "") (h2 : pyStrip name ≠ "") :
    run_job_now name SubprocessOutcome.timeout ledger =
      (s!"⏱️ Przekroczono limit czasu (5 min) dla zadania '{name}'", ledger) := by
  unfold run_job_now
  simp [h1, h2]

/-- Witness for the amended C8. -/
theorem run_job_now_timeout_no_db_write_witness :
    run_job_now "PKO_daily" SubprocessOutcome.timeout [sampleExec] =
      ("⏱️ Przekroczono limit czasu (5 min) dla zadania 'PKO_daily'",
        [sampleExec]) :=
  run_job_now_timeout_no_db_write "PKO_daily" [sampleExec]
    (by decide) (by decide)

/-! ## C9 -/

def emptyCompanyConfig : ScrapingConfig :=
  { job_name := "j1", company := "", date_from := "", date_to := "",
    model := "m", cron_schedule := "0 9 * * *" }

def emptyCompanyRow : JobRow :=
  { job_name := "j1", company := "", date_from := none, date_to := none,
    model := "m", cron_schedule := "0 9 * * *", enabled := true,
    report_limit := 5, report_types := none, report_categories := none,
    last_run := none, next_run := none, run_count := 0,
    created_at := 0, updated_at := 0 }

/-- C9 counterexample: `save_config` performs no validation at all — a
config with an empty `company` (a violated required field, as
`validate_config` itself reports) is persisted without any
`ValidationError`. -/
theorem save_config_no_validation_counterexample :
    save_config [] 0 emptyCompanyConfig =
        some ("database:j1", [emptyCompanyRow]) ∧
    validate_config (fun _ => true) emptyCompanyConfig =
      ["company is required"] := by
  refine ⟨by decide, by decide⟩

/-- C9 amended: `save_config` never validates — it persists any config
for which the date conversion does not raise — while the separate (and
never invoked by save) `validate_config` does report every violated
required field (all four characterized below) but does not examine the
content of a non-empty `cron_schedule` at all, so it cannot check that
it parses. -/
theorem save_config_skips_validation (strptimeOk : String → Bool)
    (cfg : ScrapingConfig) (db : List JobRow) (now : Int)
    (df dt : Option String)
    (hdf : convert_date cfg.date_from = some df)
    (hdt : convert_date cfg.date_to = some dt) :
    (("job_name is required" ∈ validate_config strptimeOk cfg ↔
        cfg.job_name = "") ∧
      ("company is required" ∈ validate_config strptimeOk cfg ↔
        cfg.company = "") ∧
      ("model is required" ∈ validate_config strptimeOk cfg ↔
        cfg.model = "") ∧
      ("cron_schedule is required" ∈ validate_config strptimeOk cfg ↔
        cfg.cron_schedule = "")) ∧
    (∀ s s', s ≠ "" → s' ≠ "" →
      validate_config strptimeOk { cfg with cron_schedule := s } =
        validate_config strptimeOk { cfg with cron_schedule := s' }) ∧
    (∃ db', save_config db now cfg = some ("database:" ++ cfg.job_name, db') ∧
      get_scheduled_job db' cfg.job_name ≠ none) := by
  refine ⟨⟨?_, ?_, ?_, ?_⟩, ?_, ?_⟩
  · unfold validate_config
    split_ifs <;> simp_all
  · unfold validate_config
    split_ifs <;> simp_all
  · unfold validate_config
    split_ifs <;> simp_all
  · unfold validate_config
    split_ifs <;> simp_all
  · intro s s' hs hs'
    unfold validate_config
    simp [hs, hs']
  · unfold save_config insert_scheduled_job
    rw [hdf, hdt]
    by_cases hany : db.any (fun r => r.job_name = cfg.job_name) = true
    · refine ⟨db.map (fun r => if r.job_name = cfg.job_name then
          overwriteDeclarative cfg.company df dt cfg.model cfg.cron_schedule
            cfg.enabled 5 (jsonOfOptList cfg.report_types)
            (jsonOfOptList cfg.report_categories) now r else r), ?_, ?_⟩
      · simp [hany]
      · unfold get_scheduled_job
        rw [find?_map_jobname]
        · rcases List.any_eq_true.mp hany with ⟨r, hmem, hr⟩
          have hsome : (db.find? (fun x => x.job_name = cfg.job_name)).isSome := by
            rw [List.find?_isSome]
            exact ⟨r, hmem, hr⟩
          intro hnone
          rw [Option.map_eq_none'] at hnone
          rw [hnone] at hsome
          simp at hsome
        · intro x
          by_cases h : x.job_name = cfg.job_name <;>
            simp [h, overwriteDeclarative]
    · refine ⟨db ++ [freshJobRow cfg.job_name cfg.company df dt cfg.model
          cfg.cron_schedule cfg.enabled 5 (jsonOfOptList cfg.report_types)
          (jsonOfOptList cfg.report_categories) now], ?_, ?_⟩
      · simp [hany]
      · unfold get_scheduled_job
        intro hnone
        rw [List.find?_eq_none] at hnone
        exact hnone
          (freshJobRow cfg.job_name cfg.company df dt cfg.model
            cfg.cron_schedule cfg.enabled 5 (jsonOfOptList cfg.report_types)
            (jsonOfOptList cfg.report_categories) now)
          (List.mem_append_right db (by simp)) (by simp [freshJobRow])

/-- Witness for the amended C9 at the concrete empty-company config. -/
theorem save_config_skips_validation_witness :
    (("job_name is required" ∈ validate_config (fun _ => true)
        emptyCompanyConfig ↔ emptyCompanyConfig.job_name = "") ∧
      ("company is required" ∈ validate_config (fun _ => true)
        emptyCompanyConfig ↔ emptyCompanyConfig.company = "") ∧
      ("model is required" ∈ validate_config (fun _ => true)
        emptyCompanyConfig ↔ emptyCompanyConfig.model = "") ∧
      ("cron_schedule is required" ∈ validate_config (fun _ => true)
        emptyCompanyConfig ↔ emptyCompanyConfig.cron_schedule = "")) ∧
    (∀ s s', s ≠ "" → s' ≠ "" →
      validate_config (fun _ => true)
          { emptyCompanyConfig with cron_schedule := s } =
        validate_config (fun _ => true)
          { emptyCompanyConfig with cron_schedule := s' }) ∧
    (∃ db', save_config [] 0 emptyCompanyConfig =
        some ("database:" ++ emptyCompanyConfig.job_name, db') ∧
      get_scheduled_job db' emptyCompanyConfig.job_name ≠ none) :=
  save_config_skips_validation (fun _ => true) emptyCompanyConfig [] 0
    none none (by decide) (by decide)

/-! ## C5 and C10: the cron validator -/

/-- A field passes the range check of `validate_cron_expression`:
wildcards `*`, `*/1` and non-digit tokens are skipped, digit tokens must
lie in `[minVal, maxVal]`. -/
def cronFieldOk (part : String) (minVal maxVal : Nat) : Bool :=
  if part = "*" || part = "*/1" then true
  else if pyIsDigit part then !(pyToNat part < minVal || pyToNat part > maxVal)
  else true

theorem cronRangeLoop_cons_ok (y : String × Nat × Nat × String)
    (rest : List (String × Nat × Nat × String))
    (hy : cronFieldOk y.1 y.2.1 y.2.2.1 = true) :
    cronRangeLoop (y :: rest) = cronRangeLoop rest := by
  obtain ⟨part, minVal, maxVal, name⟩ := y
  simp only [cronFieldOk] at hy
  split_ifs at hy with hA hB
  · simp [cronRangeLoop, hA]
  · simp only [Bool.not_eq_true'] at hy
    simp [cronRangeLoop, hA, hB, hy]
  · simp [cronRangeLoop, hA, hB]

theorem cronRangeLoop_all_ok (l : List (String × Nat × Nat × String))
    (h : ∀ x ∈ l, cronFieldOk x.1 x.2.1 x.2.2.1 = true) :
    cronRangeLoop l = (true, "✅ Poprawne wyrażenie cron") := by
  induction l with
  | nil => rfl
  | cons y rest ih =>
    rw [cronRangeLoop_cons_ok y rest (h y (by simp))]
    exact ih (fun x hx => h x (by simp [hx]))

theorem cronRangeLoop_first_bad (l₁ l₂ : List (String × Nat × Nat × String))
    (part : String) (lo hi : Nat) (nm : String)
    (h1 : ∀ y ∈ l₁, cronFieldOk y.1 y.2.1 y.2.2.1 = true)
    (hx : cronFieldOk part lo hi = false) :
    cronRangeLoop (l₁ ++ (part, lo, hi, nm) :: l₂) =
      (false, s!"{nm} musi być między {lo} a {hi}") := by
  induction l₁ with
  | nil =>
    simp only [cronFieldOk] at hx
    split_ifs at hx with hA hB
    rw [Bool.not_eq_false'] at hx
    rw [List.nil_append]
    show cronRangeLoop ((part, lo, hi, nm) :: l₂) = _
    unfold cronRangeLoop
    rw [if_neg hA, if_pos hB, if_pos hx]
  | cons y ys ih =>
    rw [List.cons_append, cronRangeLoop_cons_ok y _ (h1 y (by simp))]
    exact ih (fun z hz => h1 z (by simp [hz]))

theorem cronRangeLoop_eq_ok_iff (l : List (String × Nat × Nat × String)) :
    (cronRangeLoop l).1 = true ↔
      ∀ x ∈ l, cronFieldOk x.1 x.2.1 x.2.2.1 = true := by
  induction l with
  | nil => simp [cronRangeLoop]
  | cons y rest ih =>
    by_cases hy : cronFieldOk y.1 y.2.1 y.2.2.1 = true
    · rw [cronRangeLoop_cons_ok y rest hy]
      simp [hy, ih]
    · obtain ⟨p, lo, hi, nm⟩ := y
      have hbad := cronRangeLoop_first_bad [] rest p lo hi nm (by simp)
        (by simpa using hy)
      rw [List.nil_append] at hbad
      simp [hbad, hy]

/-- C5 counterexample: for `"99 99 * * *"` both the minute and the hour
field are out of range, yet the error message names only the first
violated field (`Minuta`) — `Godzina` is absent from it — so validation
does not report every violated field. -/
theorem validate_cron_multi_violation_counterexample :
    validate_cron_expression "99 99 * * *" =
      (false, "Minuta musi być między 0 a 59") ∧
    pyIsDigit "99" = true ∧ pyToNat "99" > 23 ∧
    containsSub "Minuta musi być między 0 a 59" "Godzina" = false := by
  refine ⟨by decide, by decide, by decide, by decide⟩

/-- C5 amended: validation succeeds iff the text has exactly 5
whitespace-separated fields and every numeric (all-digit) field lies in
its range (wildcards and non-digit tokens are skipped); but when several
fields are out of range the returned error names only the FIRST violated
field, and a wrong field count yields the fixed arity message. -/
theorem validate_cron_first_violation_only (s : String) :
    ((pySplitWs s).length ≠ 5 →
      validate_cron_expression s = (false,
        "Wyrażenie cron musi mieć 5 części: minuta godzina dzień miesiąc dzień_tygodnia")) ∧
    ((pySplitWs s).length = 5 →
      ((validate_cron_expression s).1 = true ↔
        ∀ x ∈ (pySplitWs s).zip cronRanges,
          cronFieldOk x.1 x.2.1 x.2.2.1 = true)) ∧
    (∀ l₁ part lo hi nm l₂, (pySplitWs s).length = 5 →
      (pySplitWs s).zip cronRanges = l₁ ++ (part, lo, hi, nm) :: l₂ →
      (∀ y ∈ l₁, cronFieldOk y.1 y.2.1 y.2.2.1 = true) →
      cronFieldOk part lo hi = false →
      validate_cron_expression s =
        (false, s!"{nm} musi być między {lo} a {hi}")) := by
  refine ⟨?_, ?_, ?_⟩
  · intro h
    unfold validate_cron_expression
    rw [if_pos h]
  · intro h
    unfold validate_cron_expression
    rw [if_neg (by simp [h])]
    exact cronRangeLoop_eq_ok_iff _
  · intro l₁ part lo hi nm l₂ h5 hzip h1 hx
    unfold validate_cron_expression
    rw [if_neg (by simp [h5]), hzip]
    exact cronRangeLoop_first_bad l₁ l₂ part lo hi nm h1 hx

/-- Witness for the amended C5 at `"99 99 * * *"`: the loop stops at the
minute field. -/
theorem validate_cron_first_violation_only_witness :
    validate_cron_expression "99 99 * * *" =
      (false, "Minuta musi być między 0 a 59") :=
  ((validate_cron_first_violation_only "99 99 * * *").2.2
    [] "99" 0 59 "Minuta"
    [("99", 0, 23, "Godzina"), ("*", 1, 31, "Dzień"), ("*", 1, 12, "Miesiąc"),
     ("*", 0, 7, "Dzień tygodnia")]
    (by decide) (by decide) (by decide) (by decide))

/-- C10: on a 5-field expression, range checking skips every token that
is not a pure digit string (wildcards included), so an expression all of
whose tokens are non-numeric — such as `"abc ** 6-3 * *"` — is reported
valid. -/
theorem validate_cron_nondigit_tokens_pass (s : String)
    (h5 : (pySplitWs s).length = 5)
    (hnd : ∀ p ∈ pySplitWs s, pyIsDigit p = false) :
    validate_cron_expression s = (true, "✅ Poprawne wyrażenie cron") := by
  unfold validate_cron_expression
  rw [if_neg (by simp [h5])]
  apply cronRangeLoop_all_ok
  intro x hx
  have hmem := (List.of_mem_zip hx).1
  have hd := hnd x.1 hmem
  unfold cronFieldOk
  split_ifs with hA hB
  · rfl
  · rw [hd] at hB
    simp at hB
  · rfl

/-- Witness for C10: `"abc ** 6-3 * *"` — tokens `abc`, `**`, `6-3` and
the wildcards all bypass the range check, so the expression validates. -/
theorem validate_cron_nondigit_tokens_pass_witness :
    validate_cron_expression "abc ** 6-3 * *" =
      (true, "✅ Poprawne wyrażenie cron") :=
  validate_cron_nondigit_tokens_pass "abc ** 6-3 * *" (by decide) (by decide)

/-! ## C6: `schedule_to_cron` round-trips through the validator -/

/-- Embedding of joining tokens with single spaces, the form every
`schedule_to_cron` f-string takes. -/
def joinSpC : List (List Char) → List Char
  | [] => []
  | [t] => t
  | t :: ts => t ++ ' ' :: joinSpC ts

theorem toString_nat_eq (n : Nat) : toString n = Nat.repr n := rfl

theorem toString_str_eq (s : String) : toString s = s := rfl

theorem mk_data_eq (s : String) : String.mk s.data = s := rfl

theorem pySplitWsC_skip_ws (c : Char) (r : List Char)
    (hc : c.isWhitespace = true) : pySplitWsC (c :: r) = pySplitWsC r := by
  simp [pySplitWsC, splitWsAux, hc]

theorem splitWsAux_token : ∀ t : List Char,
    (∀ c ∈ t, c.isWhitespace = false) →
    ∀ r acc, splitWsAux (t ++ r) acc = splitWsAux r (t.reverse ++ acc) := by
  intro t
  induction t with
  | nil => intro _ r acc; rfl
  | cons c t' ih =>
    intro hall r acc
    have hc : c.isWhitespace = false := hall c (by simp)
    show splitWsAux (c :: (t' ++ r)) acc = _
    simp only [splitWsAux, hc, Bool.false_eq_true, if_false]
    rw [ih (fun x hx => hall x (List.mem_cons_of_mem c hx)) r (c :: acc)]
    congr 1
    simp

theorem pySplitWsC_token : ∀ t : List Char, t ≠ [] →
    (∀ c ∈ t, c.isWhitespace = false) →
    ∀ r, (r = [] ∨ ∃ c2 cs, r = c2 :: cs ∧ c2.isWhitespace = true) →
    pySplitWsC (t ++ r) = t :: pySplitWsC r := by
  intro t ht hall r hr
  unfold pySplitWsC
  rw [splitWsAux_token t hall r []]
  have hne : (t.reverse ++ []).isEmpty = false := by
    simp [List.isEmpty_iff, ht]
  have hrev : t.reverse.isEmpty = false := by simpa using hne
  rcases hr with rfl | ⟨c2, cs, rfl, hws⟩
  · simp [splitWsAux, hne, List.isEmpty_iff, ht]
  · simp only [splitWsAux, hws, if_true, hne, Bool.false_eq_true, if_false,
      List.append_nil, List.reverse_reverse, hrev]
    simp [pySplitWsC, splitWsAux]


theorem pySplitWsC_joinSp : ∀ ts : List (List Char),
    (∀ t ∈ ts, t ≠ [] ∧ ∀ c ∈ t, c.isWhitespace = false) →
    pySplitWsC (joinSpC ts) = ts := by
  intro ts
  induction ts with
  | nil => intro _; rfl
  | cons t ts' ih =>
    intro h
    have h1 := h t (by simp)
    cases ts' with
    | nil =>
      have := pySplitWsC_token t h1.1 h1.2 [] (Or.inl rfl)
      simpa [joinSpC] using this
    | cons t2 ts'' =>
      rw [show joinSpC (t :: t2 :: ts'') = t ++ ' ' :: joinSpC (t2 :: ts'') from rfl]
      rw [pySplitWsC_token t h1.1 h1.2 (' ' :: joinSpC (t2 :: ts''))
        (Or.inr ⟨' ', _, rfl, by decide⟩)]
      rw [pySplitWsC_skip_ws ' ' _ (by decide)]
      rw [ih (fun x hx => h x (List.mem_cons_of_mem t hx))]

theorem splitWs_five (A B C D E : String)
    (h : ∀ t ∈ [A, B, C, D, E], t.data ≠ [] ∧ ∀ c ∈ t.data, c.isWhitespace = false) :
    (pySplitWsC (joinSpC [A.data, B.data, C.data, D.data, E.data])).map String.mk
      = [A, B, C, D, E] := by
  rw [pySplitWsC_joinSp]
  · simp [mk_data_eq]
  · intro x hx
    simp only [List.mem_cons, List.not_mem_nil, or_false] at hx
    rcases hx with rfl | rfl | rfl | rfl | rfl <;> exact h _ (by simp)

theorem cronFieldOk_star (lo hi : Nat) : cronFieldOk "*" lo hi = true := by
  simp [cronFieldOk]

theorem cronFieldOk_digit (s : String) (lo hi : Nat) (hd : pyIsDigit s = true)
    (h1 : lo ≤ pyToNat s) (h2 : pyToNat s ≤ hi) : cronFieldOk s lo hi = true := by
  have hw1 : s ≠ "*" := by rintro rfl; revert hd; decide
  have hw2 : s ≠ "*/1" := by rintro rfl; revert hd; decide
  unfold cronFieldOk
  rw [if_neg (by simp [hw1, hw2]), if_pos hd]
  simp only [Bool.not_eq_true', Bool.or_eq_false_iff, decide_eq_false_iff_not,
    Nat.not_lt]
  exact ⟨h1, h2⟩

theorem validate_of_split (s A B C D E : String)
    (hs : pySplitWs s = [A, B, C, D, E])
    (hA : cronFieldOk A 0 59 = true) (hB : cronFieldOk B 0 23 = true)
    (hC : cronFieldOk C 1 31 = true) (hD : cronFieldOk D 1 12 = true)
    (hE : cronFieldOk E 0 7 = true) :
    validate_cron_expression s = (true, "✅ Poprawne wyrażenie cron") := by
  unfold validate_cron_expression
  rw [hs, if_neg (by simp)]
  apply cronRangeLoop_all_ok
  intro x hx
  simp only [cronRanges, List.zip_cons_cons, List.zip_nil_right,
    List.mem_cons, List.not_mem_nil, or_false] at hx
  rcases hx with rfl | rfl | rfl | rfl | rfl <;> assumption

/-- Digit-string facts about `Nat.repr` for the bounded values produced
by `schedule_to_cron` (all ≤ 59 < 100). -/
theorem repr_lt100_facts : ∀ n < 100, pyIsDigit (Nat.repr n) = true ∧
    pyToNat (Nat.repr n) = n ∧ (Nat.repr n).data ≠ [] ∧
    ∀ c ∈ (Nat.repr n).data, c.isWhitespace = false := by decide

theorem dictGet_dow_mem (k : Option String) :
    dictGet dowMapping k "1" ∈ ["1", "2", "3", "4", "5", "6", "0"] := by
  cases k with
  | none => simp [dictGet]
  | some key =>
    show ((dowMapping.find? (fun p => p.1 = key)).map Prod.snd).getD "1" ∈ _
    cases hf : dowMapping.find? (fun p => p.1 = key) with
    | none => simp
    | some p =>
      have hp := List.mem_of_find?_eq_some hf
      simp only [Option.map_some', Option.getD_some]
      simp only [dowMapping, List.mem_cons, List.not_mem_nil, or_false] at hp
      rcases hp with rfl | rfl | rfl | rfl | rfl | rfl | rfl <;> simp

/-- Per-token facts for the weekday token. -/
theorem dow_token_facts (k : Option String) :
    pyIsDigit (dictGet dowMapping k "1") = true ∧
    pyToNat (dictGet dowMapping k "1") ≤ 7 ∧
    (dictGet dowMapping k "1").data ≠ [] ∧
    ∀ c ∈ (dictGet dowMapping k "1").data, c.isWhitespace = false := by
  have h := dictGet_dow_mem k
  simp only [List.mem_cons, List.not_mem_nil, or_false] at h
  rcases h with h | h | h | h | h | h | h <;> rw [h] <;> exact ⟨by decide, by decide, by decide, by decide⟩

theorem domDefault_bounds (dom : Option Nat)
    (hdom : ∀ d, dom = some d → d ≤ 31) :
    1 ≤ domDefault dom ∧ domDefault dom ≤ 31 := by
  cases dom with
  | none => exact ⟨le_refl 1, by decide⟩
  | some d =>
    by_cases hd : d = 0
    · simp [domDefault, hd]
    · simp only [domDefault, hd, if_pos (by exact hd)]
      exact ⟨Nat.one_le_iff_ne_zero.mpr hd, hdom d rfl⟩

/-- C6: for every valid input with frequency among the three supported
ones (`Codziennie`/daily, `Co tydzień`/weekly, `Co miesiąc`/monthly),
`schedule_to_cron` followed by `validate_cron_expression` succeeds, and
splitting the generated expression returns exactly the 5 generated
fields: `m h * * *` for daily, `m h * * <weekday>` for weekly and
`m h <day> * *` for monthly. -/
theorem schedule_to_cron_roundtrip (freq : String) (hour minute : Nat)
    (dow : Option String) (dom : Option Nat)
    (hfreq : freq = "Codziennie" ∨ freq = "Co tydzień" ∨ freq = "Co miesiąc")
    (hh : hour ≤ 23) (hm : minute ≤ 59)
    (hdom : ∀ d, dom = some d → d ≤ 31) :
    validate_cron_expression (schedule_to_cron freq hour minute dow dom) =
      (true, "✅ Poprawne wyrażenie cron") ∧
    pySplitWs (schedule_to_cron freq hour minute dow dom) =
      (if freq = "Codziennie" then
        [Nat.repr minute, Nat.repr hour, "*", "*", "*"]
      else if freq = "Co tydzień" then
        [Nat.repr minute, Nat.repr hour, "*", "*", dictGet dowMapping dow "1"]
      else [Nat.repr minute, Nat.repr hour, Nat.repr (domDefault dom), "*", "*"]) := by
  obtain ⟨hmd, hmv, hmn, hmw⟩ := repr_lt100_facts minute (by omega)
  obtain ⟨hhd, hhv, hhn, hhw⟩ := repr_lt100_facts hour (by omega)
  have hstar : ("*" : String).data ≠ [] ∧
      ∀ c ∈ ("*" : String).data, c.isWhitespace = false := by decide
  rcases hfreq with hf | hf | hf <;> subst hf
  · have hdata : (schedule_to_cron "Codziennie" hour minute dow dom).data =
        joinSpC [(Nat.repr minute).data, (Nat.repr hour).data,
          "*".data, "*".data, "*".data] := by
      show (s!"{minute} {hour} * * *" : String).data = _
      simp only [String.data_append, toString_nat_eq, toString_str_eq, joinSpC]
      simp
    have hsplit : pySplitWs (schedule_to_cron "Codziennie" hour minute dow dom) =
        [Nat.repr minute, Nat.repr hour, "*", "*", "*"] := by
      unfold pySplitWs
      rw [hdata]
      apply splitWs_five
      intro t ht
      simp only [List.mem_cons, List.not_mem_nil, or_false] at ht
      rcases ht with rfl | rfl | rfl | rfl | rfl
      · exact ⟨hmn, hmw⟩
      · exact ⟨hhn, hhw⟩
      · exact hstar
      · exact hstar
      · exact hstar
    refine ⟨?_, by simp [hsplit]⟩
    exact validate_of_split _ _ _ _ _ _ hsplit
      (cronFieldOk_digit _ _ _ hmd (by omega) (by omega))
      (cronFieldOk_digit _ _ _ hhd (by omega) (by omega))
      (cronFieldOk_star 1 31) (cronFieldOk_star 1 12) (cronFieldOk_star 0 7)
  · obtain ⟨hdd, hdv, hdn, hdw⟩ := dow_token_facts dow
    have hgen : ∀ d : String, (s!"{minute} {hour} * * {d}" : String).data =
        joinSpC [(Nat.repr minute).data, (Nat.repr hour).data,
          "*".data, "*".data, d.data] := by
      intro d
      simp only [String.data_append, toString_nat_eq, toString_str_eq, joinSpC]
      simp
    have hdata : (schedule_to_cron "Co tydzień" hour minute dow dom).data =
        joinSpC [(Nat.repr minute).data, (Nat.repr hour).data,
          "*".data, "*".data, (dictGet dowMapping dow "1").data] :=
      hgen (dictGet dowMapping dow "1")
    have hsplit : pySplitWs (schedule_to_cron "Co tydzień" hour minute dow dom) =
        [Nat.repr minute, Nat.repr hour, "*", "*", dictGet dowMapping dow "1"] := by
      unfold pySplitWs
      rw [hdata]
      apply splitWs_five
      intro t ht
      simp only [List.mem_cons, List.not_mem_nil, or_false] at ht
      rcases ht with rfl | rfl | rfl | rfl | rfl
      · exact ⟨hmn, hmw⟩
      · exact ⟨hhn, hhw⟩
      · exact hstar
      · exact hstar
      · exact ⟨hdn, hdw⟩
    refine ⟨?_, by simp [hsplit]⟩
    exact validate_of_split _ _ _ _ _ _ hsplit
      (cronFieldOk_digit _ _ _ hmd (by omega) (by omega))
      (cronFieldOk_digit _ _ _ hhd (by omega) (by omega))
      (cronFieldOk_star 1 31) (cronFieldOk_star 1 12)
      (cronFieldOk_digit _ _ _ hdd (by omega) (by omega))
  · obtain ⟨hb1, hb2⟩ := domDefault_bounds dom hdom
    obtain ⟨hgd, hgv, hgn, hgw⟩ := repr_lt100_facts (domDefault dom) (by omega)
    have hgen : ∀ dd : Nat, (s!"{minute} {hour} {dd} * *" : String).data =
        joinSpC [(Nat.repr minute).data, (Nat.repr hour).data,
          (Nat.repr dd).data, "*".data, "*".data] := by
      intro dd
      simp only [String.data_append, toString_nat_eq, toString_str_eq, joinSpC]
      simp
    have hdata : (schedule_to_cron "Co miesiąc" hour minute dow dom).data =
        joinSpC [(Nat.repr minute).data, (Nat.repr hour).data,
          (Nat.repr (domDefault dom)).data, "*".data, "*".data] :=
      hgen (domDefault dom)
    have hsplit : pySplitWs (schedule_to_cron "Co miesiąc" hour minute dow dom) =
        [Nat.repr minute, Nat.repr hour, Nat.repr (domDefault dom), "*", "*"] := by
      unfold pySplitWs
      rw [hdata]
      apply splitWs_five
      intro t ht
      simp only [List.mem_cons, List.not_mem_nil, or_false] at ht
      rcases ht with rfl | rfl | rfl | rfl | rfl
      · exact ⟨hmn, hmw⟩
      · exact ⟨hhn, hhw⟩
      · exact ⟨hgn, hgw⟩
      · exact hstar
      · exact hstar
    refine ⟨?_, by simp [hsplit]⟩
    exact validate_of_split _ _ _ _ _ _ hsplit
      (cronFieldOk_digit _ _ _ hmd (by omega) (by omega))
      (cronFieldOk_digit _ _ _ hhd (by omega) (by omega))
      (cronFieldOk_digit _ _ _ hgd (by omega) (by omega))
      (cronFieldOk_star 1 12) (cronFieldOk_star 0 7)

/-- Witness for C6: weekly at 9:00 Monday round-trips to
`0 9 * * 1`. -/
theorem schedule_to_cron_roundtrip_witness :
    validate_cron_expression
        (schedule_to_cron "Co tydzień" 9 0 (some "Poniedziałek") none) =
      (true, "✅ Poprawne wyrażenie cron") ∧
    pySplitWs (schedule_to_cron "Co tydzień" 9 0 (some "Poniedziałek") none) =
      (if ("Co tydzień" : String) = "Codziennie" then
        [Nat.repr 0, Nat.repr 9, "*", "*", "*"]
      else if ("Co tydzień" : String) = "Co tydzień" then
        [Nat.repr 0, Nat.repr 9, "*", "*",
          dictGet dowMapping (some "Poniedziałek") "1"]
      else [Nat.repr 0, Nat.repr 9, Nat.repr (domDefault none), "*", "*"]) :=
  schedule_to_cron_roundtrip "Co tydzień" 9 0 (some "Poniedziałek") none
    (Or.inr (Or.inl rfl)) (by decide) (by decide) (by intro d hd; cases hd)

/-! ## C3: what install/uninstall actually preserve -/

theorem data_mk (l : List Char) : (String.mk l).data = l := rfl

theorem splitOnCharC_no_sep (sep : Char) :
    ∀ cs, ∀ t ∈ splitOnCharC sep cs, ∀ c ∈ t, c ≠ sep := by
  intro cs
  induction cs with
  | nil =>
    intro t ht c hc
    simp only [splitOnCharC, List.mem_singleton] at ht
    subst ht
    simp at hc
  | cons a as ih =>
    intro t ht c hc
    by_cases ha : a = sep
    · rw [show splitOnCharC sep (a :: as) = [] :: splitOnCharC sep as from by
        simp [splitOnCharC, ha]] at ht
      rcases List.mem_cons.mp ht with rfl | ht'
      · simp at hc
      · exact ih t ht' c hc
    · cases hs : splitOnCharC sep as with
      | nil =>
        rw [show splitOnCharC sep (a :: as) = [[a]] from by
          simp [splitOnCharC, ha, hs]] at ht
        simp only [List.mem_singleton] at ht
        subst ht
        simp only [List.mem_singleton] at hc
        subst hc
        exact ha
      | cons u us =>
        rw [show splitOnCharC sep (a :: as) = (a :: u) :: us from by
          simp [splitOnCharC, ha, hs]] at ht
        rcases List.mem_cons.mp ht with rfl | ht'
        · rcases List.mem_cons.mp hc with rfl | hc'
          · exact ha
          · exact ih u (by rw [hs]; exact List.mem_cons_self u us) c hc'
        · exact ih t (by rw [hs]; exact List.mem_cons_of_mem u ht') c hc

theorem splitOnCharC_append_sep (sep : Char) :
    ∀ t : List Char, (∀ c ∈ t, c ≠ sep) → ∀ r,
      splitOnCharC sep (t ++ sep :: r) = t :: splitOnCharC sep r := by
  intro t
  induction t with
  | nil =>
    intro _ r
    simp [splitOnCharC]
  | cons a t' ih =>
    intro h r
    have ha : a ≠ sep := h a (by simp)
    show splitOnCharC sep (a :: (t' ++ sep :: r)) = _
    simp only [splitOnCharC, ha, if_false, ite_false,
      ih (fun c hc => h c (List.mem_cons_of_mem a hc)) r]

theorem splitNlC_join_trailing :
    ∀ ts : List (List Char), ts ≠ [] → (∀ t ∈ ts, ∀ c ∈ t, c ≠ '\n') →
      splitOnCharC '\n' (joinNlC ts ++ ['\n']) = ts ++ [[]] := by
  intro ts
  induction ts with
  | nil => intro h; exact absurd rfl h
  | cons t ts' ih =>
    intro _ h
    cases ts' with
    | nil =>
      show splitOnCharC '\n' (t ++ '\n' :: []) = [t, []]
      rw [splitOnCharC_append_sep '\n' t (h t (by simp)) []]
      rfl
    | cons t2 ts'' =>
      show splitOnCharC '\n' ((t ++ '\n' :: joinNlC (t2 :: ts'')) ++ ['\n']) = _
      rw [List.append_assoc, List.cons_append]
      rw [splitOnCharC_append_sep '\n' t (h t (by simp))]
      rw [ih (by simp) (fun x hx => h x (List.mem_cons_of_mem t hx))]
      rfl

theorem map_mk_data (ls : List String) :
    List.map (String.mk ∘ String.data) ls = ls := by
  induction ls with
  | nil => rfl
  | cons a l ih => simp only [List.map_cons, Function.comp_apply, mk_data_eq, ih]

theorem splitNl_join_trailing (ls : List String) (hne : ls ≠ [])
    (h : ∀ s ∈ ls, ∀ c ∈ s.data, c ≠ '\n') :
    splitNl (joinNl ls ++ "\n") = ls ++ [""] := by
  unfold splitNl joinNl
  rw [String.data_append, data_mk,
    show ("\n" : String).data = ['\n'] from rfl]
  rw [splitNlC_join_trailing (ls.map String.data) (by simpa using hne)
    (by intro x hx c hc
        rcases List.mem_map.mp hx with ⟨s, hs, rfl⟩
        exact h s hs c hc)]
  rw [List.map_append, List.map_map, map_mk_data]
  rfl

theorem marker_end_ne_start : MARKER_END ≠ MARKER_START := by decide

theorem empty_ne_marker_start : ("" : String) ≠ MARKER_START := by decide

theorem empty_ne_marker_end : ("" : String) ≠ MARKER_END := by decide

theorem exciseLoop_subset : ∀ lines : List String, ∀ b, ∀ l ∈ exciseLoop lines b,
    l ∈ lines := by
  intro lines
  induction lines with
  | nil => intro b l hl; simp [exciseLoop] at hl
  | cons x xs ih =>
    intro b l hl
    by_cases h1 : pyStrip x = MARKER_START
    · rw [show exciseLoop (x :: xs) b = exciseLoop xs true from by
        simp [exciseLoop, h1]] at hl
      exact List.mem_cons_of_mem x (ih true l hl)
    · by_cases h2 : pyStrip x = MARKER_END
      · rw [show exciseLoop (x :: xs) b = exciseLoop xs false from by
          simp [exciseLoop, h1, h2, marker_end_ne_start]] at hl
        exact List.mem_cons_of_mem x (ih false l hl)
      · cases b with
        | false =>
          rw [show exciseLoop (x :: xs) false = x :: exciseLoop xs false from by
            simp [exciseLoop, h1, h2]] at hl
          rcases List.mem_cons.mp hl with rfl | hl'
          · exact List.mem_cons_self l xs
          · exact List.mem_cons_of_mem x (ih false l hl')
        | true =>
          rw [show exciseLoop (x :: xs) true = exciseLoop xs true from by
            simp [exciseLoop, h1, h2]] at hl
          exact List.mem_cons_of_mem x (ih true l hl)

theorem exciseLoop_not_marker : ∀ lines : List String, ∀ b, ∀ l ∈ exciseLoop lines b,
    pyStrip l ≠ MARKER_START ∧ pyStrip l ≠ MARKER_END := by
  intro lines
  induction lines with
  | nil => intro b l hl; simp [exciseLoop] at hl
  | cons x xs ih =>
    intro b l hl
    by_cases h1 : pyStrip x = MARKER_START
    · rw [show exciseLoop (x :: xs) b = exciseLoop xs true from by
        simp [exciseLoop, h1]] at hl
      exact ih true l hl
    · by_cases h2 : pyStrip x = MARKER_END
      · rw [show exciseLoop (x :: xs) b = exciseLoop xs false from by
          simp [exciseLoop, h1, h2, marker_end_ne_start]] at hl
        exact ih false l hl
      · cases b with
        | false =>
          rw [show exciseLoop (x :: xs) false = x :: exciseLoop xs false from by
            simp [exciseLoop, h1, h2]] at hl
          rcases List.mem_cons.mp hl with rfl | hl'
          · exact ⟨h1, h2⟩
          · exact ih false l hl'
        | true =>
          rw [show exciseLoop (x :: xs) true = exciseLoop xs true from by
            simp [exciseLoop, h1, h2]] at hl
          exact ih true l hl

theorem uninstallLoop_eq_filter : ∀ lines : List String, ∀ b,
    uninstallLoop lines b =
      (exciseLoop lines b).filter (fun l => pyStrip l ≠ "") := by
  intro lines
  induction lines with
  | nil => intro b; rfl
  | cons x xs ih =>
    intro b
    by_cases h1 : pyStrip x = MARKER_START
    · simp [uninstallLoop, exciseLoop, h1, ih]
    · by_cases h2 : pyStrip x = MARKER_END
      · simp [uninstallLoop, exciseLoop, h1, h2, ih, marker_end_ne_start]
      · cases b with
        | true => simp [uninstallLoop, exciseLoop, h1, h2, ih]
        | false =>
          by_cases h3 : pyStrip x = ""
          · simp [uninstallLoop, exciseLoop, h1, h2, h3, ih, List.filter_cons,
              empty_ne_marker_start, empty_ne_marker_end]
          · simp [uninstallLoop, exciseLoop, h1, h2, h3, ih, List.filter_cons]

theorem exciseLoop_foreign_id : ∀ lines : List String,
    (∀ l ∈ lines, pyStrip l ≠ MARKER_START ∧ pyStrip l ≠ MARKER_END) →
    exciseLoop lines false = lines := by
  intro lines
  induction lines with
  | nil => intro _; rfl
  | cons x xs ih =>
    intro h
    have hx := h x (by simp)
    rw [show exciseLoop (x :: xs) false = x :: exciseLoop xs false from by
      simp [exciseLoop, hx.1, hx.2]]
    rw [ih (fun l hl => h l (List.mem_cons_of_mem x hl))]

theorem exciseLoop_insection : ∀ xs : List String,
    (∀ l ∈ xs, pyStrip l ≠ MARKER_START ∧ pyStrip l ≠ MARKER_END) →
    ∀ rest, exciseLoop (xs ++ rest) true = exciseLoop rest true := by
  intro xs
  induction xs with
  | nil => intro _ rest; rfl
  | cons x xs' ih =>
    intro h rest
    have hx := h x (by simp)
    show exciseLoop (x :: (xs' ++ rest)) true = _
    rw [show exciseLoop (x :: (xs' ++ rest)) true = exciseLoop (xs' ++ rest) true
      from by simp [exciseLoop, hx.1, hx.2]]
    exact ih (fun l hl => h l (List.mem_cons_of_mem x hl)) rest

theorem exciseLoop_append_foreign : ∀ xs : List String,
    (∀ l ∈ xs, pyStrip l ≠ MARKER_START ∧ pyStrip l ≠ MARKER_END) →
    ∀ rest, exciseLoop (xs ++ rest) false = xs ++ exciseLoop rest false := by
  intro xs
  induction xs with
  | nil => intro _ rest; rfl
  | cons x xs' ih =>
    intro h rest
    have hx := h x (by simp)
    show exciseLoop (x :: (xs' ++ rest)) false = _
    rw [show exciseLoop (x :: (xs' ++ rest)) false =
        x :: exciseLoop (xs' ++ rest) false from by simp [exciseLoop, hx.1, hx.2]]
    rw [ih (fun l hl => h l (List.mem_cons_of_mem x hl)) rest]
    rfl

theorem joinNlC_append_join : ∀ xs : List (List Char), ∀ ys, ys ≠ [] →
    joinNlC (xs ++ [joinNlC ys]) = joinNlC (xs ++ ys) := by
  intro xs
  induction xs with
  | nil =>
    intro ys hys
    rfl
  | cons x xs' ih =>
    intro ys hys
    cases xs' with
    | nil =>
      cases ys with
      | nil => exact absurd rfl hys
      | cons y ys' => rfl
    | cons x2 xs'' =>
      show joinNlC (x :: (x2 :: xs'' ++ [joinNlC ys])) = _
      rw [show joinNlC (x :: (x2 :: xs'' ++ [joinNlC ys])) =
          x ++ '\n' :: joinNlC (x2 :: xs'' ++ [joinNlC ys]) from rfl]
      rw [show (x2 :: xs'' ++ [joinNlC ys]) = ((x2 :: xs'') ++ [joinNlC ys]) from rfl]
      rw [ih ys hys]
      rfl

theorem joinNl_append_join (xs ys : List String) (hys : ys ≠ []) :
    joinNl (xs ++ [joinNl ys]) = joinNl (xs ++ ys) := by
  unfold joinNl
  congr 1
  rw [List.map_append, List.map_append]
  rw [show ([String.mk (joinNlC (ys.map String.data))].map String.data) =
    [joinNlC (ys.map String.data)] from rfl]
  exact joinNlC_append_join (xs.map String.data) (ys.map String.data)
    (by simpa using hys)

/-- The shape shared by both written-back crontab texts: clean lines
joined with newlines plus a trailing newline; its non-blank foreign
lines are exactly the non-blank input lines. -/
theorem nbForeign_of_clean_lines (ls : List String) (hne : ls ≠ [])
    (hnl : ∀ l ∈ ls, ∀ c ∈ l.data, c ≠ '\n')
    (hnm : ∀ l ∈ ls, pyStrip l ≠ MARKER_START ∧ pyStrip l ≠ MARKER_END) :
    nbForeign (joinNl ls ++ "\n") = ls.filter (fun l => pyStrip l ≠ "") := by
  unfold nbForeign foreignLines
  rw [splitNl_join_trailing ls hne hnl]
  rw [exciseLoop_foreign_id (ls ++ [""]) (by
    intro l hl
    rcases List.mem_append.mp hl with hl' | hl'
    · exact hnm l hl'
    · simp only [List.mem_singleton] at hl'
      subst hl'
      exact ⟨by decide, by decide⟩)]
  rw [List.filter_append]
  rw [show List.filter (fun l => pyStrip l ≠ "") ([""] : List String) = [] from by
    decide]
  rw [List.append_nil]

theorem foreignLines_join_trailing (ls : List String) (hne : ls ≠ [])
    (hnl : ∀ l ∈ ls, ∀ c ∈ l.data, c ≠ '\n') :
    foreignLines (joinNl ls ++ "\n") = exciseLoop (ls ++ [""]) false := by
  unfold foreignLines
  rw [splitNl_join_trailing ls hne hnl]

/-- Non-blank foreign lines never contain a newline (they come from a
newline split) and never strip to a marker. -/
theorem foreignLines_no_nl (t : String) :
    ∀ l ∈ foreignLines t, ∀ c ∈ l.data, c ≠ '\n' := by
  intro l hl c hc
  have hl' : l ∈ splitNl t := exciseLoop_subset _ _ l hl
  rcases List.mem_map.mp hl' with ⟨piece, hpiece, rfl⟩
  rw [data_mk] at hc
  exact splitOnCharC_no_sep '\n' t.data piece hpiece c hc

/-- C3 amended: byte-for-byte preservation fails (blank foreign lines
are dropped and outer whitespace is trimmed — see the counterexample),
but the ordered sequence of NON-BLANK foreign lines is preserved by
`uninstall_jobs`, and by `install_jobs`, whenever the final `strip()` of
the merged document is a no-op and the generated section lines are not
themselves marker or newline-bearing lines. -/
theorem cron_sync_preserves_nonblank_foreign
    (t : String) (configs : List ScrapingConfig) (pp rs proj : String)
    (hstripU : pyStrip (joinNl (nbForeign t)) = joinNl (nbForeign t))
    (hact : (configs.filter (fun c => c.enabled)).isEmpty = false)
    (hinner : ∀ l ∈ jobSectionLines (configs.filter (fun c => c.enabled)) pp rs proj,
      (pyStrip l ≠ MARKER_START ∧ pyStrip l ≠ MARKER_END) ∧ ∀ c ∈ l.data, c ≠ '\n')
    (hstripI : pyStrip (joinNl (foreignLines t ++
        sectionLines (configs.filter (fun c => c.enabled)) pp rs proj)) =
      joinNl (foreignLines t ++
        sectionLines (configs.filter (fun c => c.enabled)) pp rs proj)) :
    nbForeign (uninstall_jobs t) = nbForeign t ∧
    install_jobs configs t pp rs proj =
      some (joinNl (foreignLines t ++
        sectionLines (configs.filter (fun c => c.enabled)) pp rs proj) ++ "\n") ∧
    nbForeign (joinNl (foreignLines t ++
        sectionLines (configs.filter (fun c => c.enabled)) pp rs proj) ++ "\n") =
      nbForeign t := by
  have hFL : exciseLoop (splitNl t) false = foreignLines t := rfl
  have hforeign_nomark : ∀ l ∈ foreignLines t,
      pyStrip l ≠ MARKER_START ∧ pyStrip l ≠ MARKER_END :=
    fun l hl => exciseLoop_not_marker (splitNl t) false l hl
  have hnb_sub : ∀ l ∈ nbForeign t, l ∈ foreignLines t :=
    fun l hl => List.mem_of_mem_filter hl
  refine ⟨?_, ?_, ?_⟩
  · unfold uninstall_jobs
    by_cases hm : containsSub t MARKER_START
    · rw [if_neg (by simp [hm])]
      have hkept : uninstallLoop (splitNl t) false = nbForeign t := by
        unfold nbForeign foreignLines
        exact uninstallLoop_eq_filter _ _
      by_cases hkempty : (uninstallLoop (splitNl t) false).isEmpty
      · rw [if_pos hkempty]
        have hnb : nbForeign t = [] := by
          rw [← hkept]
          exact List.isEmpty_iff.mp hkempty
        rw [hnb]
        decide
      · rw [if_neg hkempty, hkept, hstripU]
        rw [nbForeign_of_clean_lines (nbForeign t)
          (by rw [← hkept]; exact fun h => hkempty (by simp [h]))
          (fun l hl => foreignLines_no_nl t l (hnb_sub l hl))
          (fun l hl => hforeign_nomark l (hnb_sub l hl))]
        exact List.filter_eq_self.mpr (fun l hl => by
          simpa using List.of_mem_filter hl)
    · rw [if_pos (by simp [hm])]
  · unfold install_jobs getOurJobsSection
    rw [if_neg (by simp [hact])]
    simp only [hFL]
    rw [joinNl_append_join (foreignLines t) _ (by simp [sectionLines]), hstripI]
  · have hsec_nonl : ∀ l ∈ sectionLines (configs.filter (fun c => c.enabled)) pp rs proj,
        ∀ c ∈ l.data, c ≠ '\n' := by
      intro l hl
      simp only [sectionLines, List.mem_append, List.mem_singleton,
        List.mem_cons, List.not_mem_nil, or_false] at hl
      rcases hl with (rfl | hl) | rfl
      · decide
      · exact (hinner l hl).2
      · decide
    have hne : foreignLines t ++
        sectionLines (configs.filter (fun c => c.enabled)) pp rs proj ≠ [] := by
      intro h
      have h2 := (List.append_eq_nil.mp h).2
      simp [sectionLines] at h2
    have hnl : ∀ l ∈ foreignLines t ++
        sectionLines (configs.filter (fun c => c.enabled)) pp rs proj,
        ∀ c ∈ l.data, c ≠ '\n' := by
      intro l hl
      rcases List.mem_append.mp hl with h | h
      · exact foreignLines_no_nl t l h
      · exact hsec_nonl l h
    have hms : pyStrip MARKER_START = MARKER_START := by decide
    have hfor : foreignLines (joinNl (foreignLines t ++
        sectionLines (configs.filter (fun c => c.enabled)) pp rs proj) ++ "\n") =
        foreignLines t ++ [""] := by
      rw [foreignLines_join_trailing _ hne hnl]
      rw [List.append_assoc]
      rw [exciseLoop_append_foreign (foreignLines t) hforeign_nomark]
      congr 1
      rw [show sectionLines (configs.filter (fun c => c.enabled)) pp rs proj ++ [""] =
          MARKER_START :: (jobSectionLines (configs.filter (fun c => c.enabled)) pp rs proj ++
            ([MARKER_END] ++ [""])) from by simp [sectionLines]]
      rw [show exciseLoop (MARKER_START ::
          (jobSectionLines (configs.filter (fun c => c.enabled)) pp rs proj ++
            ([MARKER_END] ++ [""]))) false =
          exciseLoop (jobSectionLines (configs.filter (fun c => c.enabled)) pp rs proj ++
            ([MARKER_END] ++ [""])) true from by simp [exciseLoop, hms]]
      rw [exciseLoop_insection _ (fun l hl => (hinner l hl).1) ([MARKER_END] ++ [""])]
      decide
    show nbForeign _ = nbForeign t
    unfold nbForeign
    rw [hfor, List.filter_append]
    rw [show List.filter (fun l => pyStrip l ≠ "") ([""] : List String) = [] from by
      decide]
    rw [List.append_nil]

/-- Witness for the amended C3 at a concrete crontab with two non-blank
foreign lines and one enabled config. -/
theorem cron_sync_preserves_nonblank_foreign_witness :
    nbForeign (uninstall_jobs "a\nb\n# GPW_SCRAPER_START\nX\n# GPW_SCRAPER_END\n") =
      nbForeign "a\nb\n# GPW_SCRAPER_START\nX\n# GPW_SCRAPER_END\n" ∧
    install_jobs [sampleConfig] "a\nb\n# GPW_SCRAPER_START\nX\n# GPW_SCRAPER_END\n"
        "/p" "/r" "/x" =
      some (joinNl (foreignLines "a\nb\n# GPW_SCRAPER_START\nX\n# GPW_SCRAPER_END\n" ++
        sectionLines (List.filter (fun c => c.enabled) [sampleConfig]) "/p" "/r" "/x") ++
        "\n") ∧
    nbForeign (joinNl (foreignLines "a\nb\n# GPW_SCRAPER_START\nX\n# GPW_SCRAPER_END\n" ++
        sectionLines (List.filter (fun c => c.enabled) [sampleConfig]) "/p" "/r" "/x") ++
        "\n") =
      nbForeign "a\nb\n# GPW_SCRAPER_START\nX\n# GPW_SCRAPER_END\n" :=
  cron_sync_preserves_nonblank_foreign
    "a\nb\n# GPW_SCRAPER_START\nX\n# GPW_SCRAPER_END\n" [sampleConfig] "/p" "/r" "/x"
    (by decide) (by decide) (by decide) (by decide)

/-- C3 counterexample: `uninstall_jobs` drops the blank foreign line of
`"a\n\nb\n…"` — the content outside the markers is not byte-for-byte
preserved. -/
theorem uninstall_drops_blank_foreign_line :
    uninstall_jobs "a\n\nb\n# GPW_SCRAPER_START\nX\n# GPW_SCRAPER_END\n" =
      "a\nb\n" ∧
    foreignLines "a\n\nb\n# GPW_SCRAPER_START\nX\n# GPW_SCRAPER_END\n" =
      ["a", "", "b", ""] ∧
    foreignLines "a\nb\n" = ["a", "b", ""] ∧
    foreignLines
        (uninstall_jobs "a\n\nb\n# GPW_SCRAPER_START\nX\n# GPW_SCRAPER_END\n") ≠
      foreignLines "a\n\nb\n# GPW_SCRAPER_START\nX\n# GPW_SCRAPER_END\n" := by
  refine ⟨by decide, by decide, by decide, by decide⟩

end GPW
